import Mathlib

/-!
Shallow embedding of the command-safety gating and execution pipeline of
`discord_commander.py`, together with proofs of the specified properties.

Conventions of the embedding:
* Python strings are Lean `String`s; character-level scanning works on
  `String.data : List Char`.  Python `str.lower()` is `Char.toLower` mapped
  over the characters (faithful on the ASCII range the policy uses).
* The five suspicious regular expressions hard-coded in
  `SecurityChecker.__init__` are embedded as decidable scanners over
  `List Char` implementing `re.search` semantics for exactly those patterns.
* The `pending_commands` Python dict is an insertion-ordered association
  list with unique keys, with insert-replaces and pop-removes semantics.
* `subprocess.run` is an external effect; it is abstracted as an oracle
  `String → Nat → SubprocessOutcome` (command text and timeout in seconds),
  and `CommandExecutor.execute_command` is a function of that oracle.
* `hashlib.md5(...).hexdigest()[:8]` is an external library function; the
  ticket-id computation is abstracted as a parameter `tid : String → String`.
* `datetime.now().isoformat()` is ambient input; `add_message` takes the
  timestamp as an explicit argument.
-/

set_option autoImplicit false

/-! ### RiskClassifier (`SecurityChecker`) -/

/-- Python `\s` on the ASCII range: the whitespace characters
space, tab, newline, carriage return, vertical tab, form feed. -/
def isSpaceChar (c : Char) : Bool :=
  c = ' ' || c = '\t' || c = '\n' || c = '\r' || c = '\x0b' || c = '\x0c'

/-- `re.search(r'[\|&;]', s)`: some character is a pipe or chain operator. -/
def matchPipeChain (cs : List Char) : Bool :=
  cs.any (fun c => c = '|' || c = '&' || c = ';')

/-- Continuation of `>\s*[/\\]` after the `>`: skip whitespace, then require
`/` or `\`. -/
def matchRedirAfter : List Char → Bool
  | [] => false
  | c :: cs => if isSpaceChar c then matchRedirAfter cs else (c = '/' || c = '\\')

/-- `re.search(r'>\s*[/\\]', s)`: a `>` followed by optional whitespace and a
slash or backslash (redirection into a system path). -/
def matchRedir : List Char → Bool
  | [] => false
  | c :: rest => (if c = '>' then matchRedirAfter rest else false) || matchRedir rest

/-- Continuation of `<.*>` after the `<`: a `>` occurs before any newline
(`.` does not match a newline). -/
def matchAngleAfter : List Char → Bool
  | [] => false
  | c :: cs => if c = '>' then true else if c = '\n' then false else matchAngleAfter cs

/-- `re.search(r'<.*>', s)`: a `<` with a later `>` on the same line. -/
def matchAngle : List Char → Bool
  | [] => false
  | c :: rest => (if c = '<' then matchAngleAfter rest else false) || matchAngle rest

/-- `re.search(r'\$\([^)]*\)', s)`: a `$(` with a later `)`
(command substitution). -/
def matchDollar : List Char → Bool
  | [] => false
  | c :: rest =>
    (if c = '$' then
      match rest with
      | '(' :: cs => cs.any (fun d => d = ')')
      | _ => false
    else false) || matchDollar rest

/-- `re.search` for the backtick-execution pattern (a backtick with a later
backtick). -/
def matchBacktick : List Char → Bool
  | [] => false
  | c :: rest =>
    (if c = '\x60' then rest.any (fun d => d = '\x60') else false) || matchBacktick rest

/-- The fixed `suspicious_patterns` list from `SecurityChecker.__init__`:
the pattern source text (used in the warning message) paired with its
embedded matcher. -/
def suspicious_patterns : List (String × (List Char → Bool)) :=
  [ ("[\\|&;]", matchPipeChain)
  , (">\\s*[/\\\\]", matchRedir)
  , ("<.*>", matchAngle)
  , ("\\$\\([^)]*\\)", matchDollar)
  , ("\x60[^\x60]*\x60", matchBacktick) ]

/-- The result dict built by `SecurityChecker.check_command`. -/
structure CheckResult where
  safe : Bool
  warnings : List String
  dangerous_parts : List String
  risk_level : String
  deriving DecidableEq, Repr

/-- Lower-cased character list of a string (Python `str.lower()`). -/
def lowerChars (s : String) : List Char := s.data.map Char.toLower

/-- Boolean prefix test on character lists. -/
def isPrefixChars : List Char → List Char → Bool
  | [], _ => true
  | _ :: _, [] => false
  | a :: as, b :: bs => a = b && isPrefixChars as bs

/-- Python substring containment `needle in haystack` on character lists. -/
def containsSub (needle : List Char) : List Char → Bool
  | [] => isPrefixChars needle []
  | b :: t => isPrefixChars needle (b :: t) || containsSub needle t

/-- The dangerous-command loop of `check_command`: each configured term whose
lower-cased text occurs in the lower-cased command is recorded, in
configuration order. -/
def dangerousScan (terms : List String) (commandLower : List Char) : List String :=
  match terms with
  | [] => []
  | t :: ts =>
    if containsSub (lowerChars t) commandLower
    then t :: dangerousScan ts commandLower
    else dangerousScan ts commandLower

/-- The suspicious-pattern loop of `check_command`: each pattern matching the
original command text is recorded, in configuration order. -/
def patternScan (patterns : List (String × (List Char → Bool))) (command : List Char) :
    List String :=
  match patterns with
  | [] => []
  | p :: ps => if p.2 command then p.1 :: patternScan ps command else patternScan ps command

/-- `SecurityChecker.check_command`: dangerous-term containment is checked on
the lower-cased text, suspicious patterns on the original text; `safe` starts
true and is cleared by any match of either kind; the warning list carries the
term warnings (in term order) followed by the pattern warnings (in pattern
order); the risk level depends only on how many dangerous terms matched. -/
def check_command (dangerous_commands : List String) (command : String) : CheckResult :=
  let command_lower := lowerChars command
  let parts := dangerousScan dangerous_commands command_lower
  let patWarns := patternScan suspicious_patterns command.data
  { safe := parts.isEmpty && patWarns.isEmpty
  , warnings :=
      parts.map (fun t => "Обнаружена опасная команда: " ++ t)
        ++ patWarns.map (fun p => "Подозрительный паттерн: " ++ p)
  , dangerous_parts := parts
  , risk_level :=
      if parts.length > 2 then "high"
      else if parts.length > 0 then "medium"
      else "low" }

/-- The `SecurityChecker` object state: the configured dangerous-command
list (the suspicious patterns are the fixed list above). -/
structure SecurityChecker where
  dangerous_commands : List String
  deriving DecidableEq

/-- Method call `checker.check_command(command)` in explicit state-passing
form: the method reads `self.dangerous_commands` and writes nothing, so the
post-state is the pre-state. -/
def SecurityChecker.check (self : SecurityChecker) (command : String) :
    CheckResult × SecurityChecker :=
  (check_command self.dangerous_commands command, self)

/-! ### ConversationHistory (`MessageHistory`) -/

/-- One entry of `MessageHistory.messages`
(`{"role": ..., "content": ..., "timestamp": ...}`). -/
structure HistoryEntry where
  role : String
  content : String
  timestamp : String
  deriving DecidableEq, Repr

/-- The `MessageHistory` object state. -/
structure MessageHistory where
  limit : Nat
  messages : List HistoryEntry
  deriving DecidableEq, Repr

/-- Stride counter for `everyFifth`: select when the counter hits 0, then
skip the next 4 elements. -/
def everyFifthAux {α : Type} : Nat → List α → List α
  | _, [] => []
  | 0, x :: xs => x :: everyFifthAux 4 xs
  | n + 1, _ :: xs => everyFifthAux n xs

/-- Python extended slice `l[::5]`: the elements at indices 0, 5, 10, …. -/
def everyFifth {α : Type} (l : List α) : List α := everyFifthAux 0 l

/-- `MessageHistory._compress_history`: when over the limit, keep
`messages[:-20:5]` (every 5th of the entries preceding the last 20,
oldest-first) followed by `messages[-20:]` (the last 20 verbatim).
Python's negative-index clamping is natural subtraction. -/
def compress_history (limit : Nat) (messages : List HistoryEntry) : List HistoryEntry :=
  if messages.length > limit then
    everyFifth (messages.take (messages.length - 20))
      ++ messages.drop (messages.length - 20)
  else messages

/-- `MessageHistory.add_message`: append the entry, then compress if the
length now exceeds the limit.  The timestamp (ambient `datetime.now()` in
the source) is an explicit argument. -/
def add_message (h : MessageHistory) (role content timestamp : String) : MessageHistory :=
  let messages := h.messages ++ [⟨role, content, timestamp⟩]
  if messages.length > h.limit then
    { h with messages := compress_history h.limit messages }
  else
    { h with messages := messages }

/-! ### CommandRunner (`CommandExecutor`) -/

/-- Outcome of the external `subprocess.run(command, shell=True,
capture_output=True, text=True, timeout=...)` call: normal completion with
exit code and decoded output, `subprocess.TimeoutExpired`, or any other
exception with its message. -/
inductive SubprocessOutcome where
  | completed (returncode : Int) (stdout stderr : String)
  | timedOut
  | failed (message : String)
  deriving DecidableEq, Repr

/-- The result dict built by `CommandExecutor.execute_command`: the success
branch carries stdout, stderr and the return code, the failure branch only
an error message. -/
structure ExecResult where
  success : Bool
  stdout : Option String
  stderr : Option String
  returncode : Option Int
  error : Option String
  deriving DecidableEq, Repr

/-- The timeout error message from `execute_command`. -/
def timeoutErrorMessage : String := "Команда превысила лимит времени выполнения (30 сек)"

/-- `CommandExecutor.execute_command`, with the subprocess as an oracle
mapping (command, timeout-in-seconds) to an outcome.  Both branches of the
`os_type` test issue the same call with `timeout=30`. -/
def execute_command (os_type : String) (command : String)
    (shell : String → Nat → SubprocessOutcome) : ExecResult :=
  let outcome := if os_type = "windows" then shell command 30 else shell command 30
  match outcome with
  | .completed returncode stdout stderr =>
    { success := true, stdout := some stdout, stderr := some stderr
    , returncode := some returncode, error := none }
  | .timedOut =>
    { success := false, stdout := none, stderr := none, returncode := none
    , error := some timeoutErrorMessage }
  | .failed message =>
    { success := false, stdout := none, stderr := none, returncode := none
    , error := some message }

/-! ### ApprovalLedger (`self.pending_commands` plus the `approve` handler) -/

/-- The `pending_commands` dict: an insertion-ordered association list whose
keys are unique in every reachable state. -/
def PendingDict : Type := List (String × String)

instance : DecidableEq PendingDict := by unfold PendingDict; infer_instance

/-- Python `d[k] = v`: replace the value at an existing key in place, else
append the new pair at the end (insertion order). -/
def dictInsert (d : PendingDict) (k v : String) : PendingDict :=
  match d with
  | [] => [(k, v)]
  | (k', v') :: rest =>
    if k' = k then (k, v) :: rest else (k', v') :: dictInsert rest k v

/-- Python `d.pop(k)` guarded by `k in d`: the value at `k` and the dict
without that entry, or `none` when `k` is absent. -/
def dictPop (d : PendingDict) (k : String) : Option (String × PendingDict) :=
  match d with
  | [] => none
  | (k', v') :: rest =>
    if k' = k then some (v', rest)
    else (dictPop rest k).map (fun p => (p.1, (k', v') :: p.2))

/-- The dict without its entry at `k` (unchanged when `k` is absent);
the residue of a successful `dictPop`. -/
def dictErase (d : PendingDict) (k : String) : PendingDict :=
  match d with
  | [] => []
  | (k', v') :: rest => if k' = k then rest else (k', v') :: dictErase rest k

/-- What the `approve` handler does besides messaging: execute a popped
command, or report "not found or already executed". -/
inductive ApproveOutcome where
  | execute (command : String)
  | notFound
  deriving DecidableEq, Repr

/-- The `approve` bot command: `command_id` is `None` when the argument is
omitted; the Python truthiness test makes the empty string act like a
missing id; a present id is popped from the dict and its command executed. -/
def approve_command (pending : PendingDict) (command_id : Option String) :
    ApproveOutcome × PendingDict :=
  match command_id with
  | none => (.notFound, pending)
  | some id =>
    if id = "" then (.notFound, pending)
    else
      match dictPop pending id with
      | some (command, rest) => (.execute command, rest)
      | none => (.notFound, pending)

/-- `DiscordBot._request_approval`, ledger part: compute the short ticket id
(`hashlib.md5(command.encode()).hexdigest()[:8]`, abstracted as `tid`) and
store the command under it. -/
def request_approval (tid : String → String) (pending : PendingDict) (command : String) :
    String × PendingDict :=
  let command_id := tid command
  (command_id, dictInsert pending command_id command)

/-! ### The gating pipeline (`DiscordBot._execute_with_security_check`) -/

/-- The policy configuration the pipeline reads. -/
structure BotConfig where
  max_command_length : Nat
  auto_approve_safe : Bool
  dangerous_commands : List String
  deriving DecidableEq

/-- What `_execute_with_security_check` does to the outside world: reject the
command for length, hand it to the runner, or park it under a ticket id. -/
inductive PipelineAction where
  | rejectedTooLong
  | executed (command : String)
  | parked (ticketId : String)
  deriving DecidableEq, Repr

/-- `DiscordBot._execute_with_security_check`: length gate first, then the
classifier; a safe verdict or the `auto_approve_safe` flag sends the command
straight to the runner, otherwise it is parked in the ledger. -/
def execute_with_security_check (tid : String → String) (cfg : BotConfig)
    (pending : PendingDict) (command : String) : PipelineAction × PendingDict :=
  if command.length > cfg.max_command_length then
    (.rejectedTooLong, pending)
  else
    let security_result := check_command cfg.dangerous_commands command
    if security_result.safe || cfg.auto_approve_safe then
      (.executed command, pending)
    else
      let (command_id, pending') := request_approval tid pending command
      (.parked command_id, pending')

/-! ### Classifier lemmas -/

theorem isPrefixChars_iff (a b : List Char) : isPrefixChars a b = true ↔ a <+: b := by
  induction a generalizing b with
  | nil => simp [isPrefixChars]
  | cons x xs ih =>
    cases b with
    | nil => simp [isPrefixChars]
    | cons y ys => simp [isPrefixChars, ih, List.cons_prefix_cons]

theorem containsSub_iff (n h : List Char) : containsSub n h = true ↔ n <:+: h := by
  induction h with
  | nil =>
    rw [containsSub, isPrefixChars_iff, List.prefix_nil, List.infix_nil]
  | cons y ys ih =>
    rw [containsSub, List.infix_cons_iff, Bool.or_eq_true, isPrefixChars_iff, ih]

theorem dangerousScan_eq_filter (terms : List String) (cl : List Char) :
    dangerousScan terms cl = terms.filter (fun t => containsSub (lowerChars t) cl) := by
  induction terms with
  | nil => rfl
  | cons t ts ih =>
    by_cases hc : containsSub (lowerChars t) cl = true <;>
      simp [dangerousScan, List.filter_cons, hc, ih]

theorem patternScan_eq_filter (ps : List (String × (List Char → Bool))) (cmd : List Char) :
    patternScan ps cmd = (ps.filter (fun p => p.2 cmd)).map Prod.fst := by
  induction ps with
  | nil => rfl
  | cons p ps ih =>
    by_cases hm : p.2 cmd = true <;> simp [patternScan, List.filter_cons, hm, ih]

theorem mem_dangerousScan (terms : List String) (cl : List Char) (t : String) :
    t ∈ dangerousScan terms cl ↔ t ∈ terms ∧ containsSub (lowerChars t) cl = true := by
  rw [dangerousScan_eq_filter]; simp [List.mem_filter]

theorem dangerousScan_eq_nil_iff (terms : List String) (cl : List Char) :
    dangerousScan terms cl = [] ↔ ∀ t ∈ terms, ¬ containsSub (lowerChars t) cl = true := by
  rw [dangerousScan_eq_filter, List.filter_eq_nil_iff]

theorem patternScan_eq_nil_iff (ps : List (String × (List Char → Bool))) (cmd : List Char) :
    patternScan ps cmd = [] ↔ ∀ p ∈ ps, ¬ p.2 cmd = true := by
  rw [patternScan_eq_filter]
  simp [List.filter_eq_nil_iff]

theorem check_safe_eq_true_iff (terms : List String) (command : String) :
    (check_command terms command).safe = true ↔
      dangerousScan terms (lowerChars command) = [] ∧
      patternScan suspicious_patterns command.data = [] := by
  simp [check_command, List.isEmpty_iff]

/-- C2: `classify` returns `safe == false` iff the text contains a configured
dangerous term case-insensitively or the original text matches a suspicious
pattern; every contained term is recorded in `dangerous_parts`; and a text
matching nothing is `safe` with risk level `low`. -/
theorem classify_safe_iff (terms : List String) (command : String) :
    ((check_command terms command).safe = false ↔
      (∃ t ∈ terms, lowerChars t <:+: lowerChars command) ∨
      (∃ p ∈ suspicious_patterns, p.2 command.data = true))
    ∧ (∀ t ∈ terms, lowerChars t <:+: lowerChars command →
        t ∈ (check_command terms command).dangerous_parts)
    ∧ ((¬ ((∃ t ∈ terms, lowerChars t <:+: lowerChars command) ∨
        (∃ p ∈ suspicious_patterns, p.2 command.data = true))) →
      (check_command terms command).safe = true ∧
      (check_command terms command).risk_level = "low") := by
  refine ⟨?_, ?_, ?_⟩
  · rw [Bool.eq_false_iff, Ne, check_safe_eq_true_iff, dangerousScan_eq_nil_iff,
      patternScan_eq_nil_iff]
    constructor
    · intro hne
      by_contra hnor
      rw [not_or] at hnor
      obtain ⟨hd, hp⟩ := hnor
      refine hne ⟨?_, ?_⟩
      · intro t ht hc
        exact hd ⟨t, ht, (containsSub_iff ..).1 hc⟩
      · intro p hp' hm
        exact hp ⟨p, hp', hm⟩
    · intro hor hall
      obtain ⟨hd, hp⟩ := hall
      rcases hor with ⟨t, ht, hc⟩ | ⟨p, hp', hm⟩
      · exact hd t ht ((containsSub_iff ..).2 hc)
      · exact hp p hp' hm
  · intro t ht hc
    simp only [check_command]
    exact (mem_dangerousScan ..).2 ⟨ht, (containsSub_iff ..).2 hc⟩
  · intro hnone
    rw [not_or] at hnone
    obtain ⟨hd, hp⟩ := hnone
    have hdnil : dangerousScan terms (lowerChars command) = [] := by
      rw [dangerousScan_eq_nil_iff]
      intro t ht hc
      exact hd ⟨t, ht, (containsSub_iff ..).1 hc⟩
    have hpnil : patternScan suspicious_patterns command.data = [] := by
      rw [patternScan_eq_nil_iff]
      intro p hp' hm
      exact hp ⟨p, hp', hm⟩
    simp [check_command, hdnil, hpnil]

/-- Closed instance of `classify_safe_iff`: the spec's own example inputs,
with each hypothesis discharged concretely. -/
theorem classify_safe_iff_witness :
    (check_command ["rm -rf"] "please RM -rf /tmp").safe = false ∧
    "rm -rf" ∈ (check_command ["rm -rf"] "please RM -rf /tmp").dangerous_parts ∧
    (check_command [] "config get").safe = true ∧
    (check_command [] "config get").risk_level = "low" := by
  refine ⟨?_, ?_, ?_, ?_⟩
  · exact ((classify_safe_iff ["rm -rf"] "please RM -rf /tmp").1).2
      (Or.inl ⟨"rm -rf", by decide, by decide⟩)
  · exact ((classify_safe_iff ["rm -rf"] "please RM -rf /tmp").2.1)
      "rm -rf" (by decide) (by decide)
  · exact (((classify_safe_iff [] "config get").2.2) (by decide)).1
  · exact (((classify_safe_iff [] "config get").2.2) (by decide)).2

/-- C4: the risk level is the stated function of the dangerous-term match
count alone — 0 matches low, 1–2 medium, more than 2 high — and a text with
a suspicious-pattern match but no dangerous-term match is unsafe with risk
level `low`. -/
theorem risk_level_from_count (terms : List String) (command : String) :
    ((check_command terms command).risk_level =
      (if terms.countP (fun t => decide (lowerChars t <:+: lowerChars command)) > 2
        then "high"
      else if terms.countP (fun t => decide (lowerChars t <:+: lowerChars command)) > 0
        then "medium"
      else "low"))
    ∧ ((∀ t ∈ terms, ¬ lowerChars t <:+: lowerChars command) →
      (∃ p ∈ suspicious_patterns, p.2 command.data = true) →
      (check_command terms command).safe = false ∧
      (check_command terms command).risk_level = "low") := by
  have hpt : ∀ t : String,
      containsSub (lowerChars t) (lowerChars command)
        = decide (lowerChars t <:+: lowerChars command) := by
    intro t
    by_cases hinf : lowerChars t <:+: lowerChars command
    · rw [(containsSub_iff ..).2 hinf, decide_eq_true hinf]
    · rw [decide_eq_false hinf, Bool.eq_false_iff, Ne, containsSub_iff]
      exact hinf
  have hlen : (dangerousScan terms (lowerChars command)).length
      = terms.countP (fun t => decide (lowerChars t <:+: lowerChars command)) := by
    rw [dangerousScan_eq_filter, ← List.countP_eq_length_filter]
    exact List.countP_congr (fun t _ => by rw [hpt t])
  constructor
  · simp only [check_command]
    rw [hlen]
  · intro hno hpat
    have hdnil : dangerousScan terms (lowerChars command) = [] :=
      (dangerousScan_eq_nil_iff ..).2
        (fun t ht hc => hno t ht ((containsSub_iff ..).1 hc))
    have hpne : patternScan suspicious_patterns command.data ≠ [] := by
      intro hnil
      obtain ⟨p, hp, hm⟩ := hpat
      exact (patternScan_eq_nil_iff ..).1 hnil p hp hm
    refine ⟨?_, ?_⟩
    · simp only [check_command, hdnil, List.isEmpty_nil, Bool.true_and]
      rw [Bool.eq_false_iff, Ne, List.isEmpty_iff]
      exact hpne
    · simp [check_command, hdnil]

/-- Closed instance of `risk_level_from_count` at the spec's pipe example:
empty dangerous list, `"echo hello | cat"`. -/
theorem risk_level_from_count_witness :
    (check_command [] "echo hello | cat").risk_level = "low" ∧
    (check_command [] "echo hello | cat").safe = false := by
  refine ⟨(risk_level_from_count [] "echo hello | cat").1, ?_⟩
  refine ((risk_level_from_count [] "echo hello | cat").2 (by simp) ?_).1
  refine ⟨("[\\|&;]", matchPipeChain), ?_, by decide⟩
  rw [suspicious_patterns]
  exact List.mem_cons_self _ _

/-- C9: `check_command` as a method call in state-passing form: the checker
state is returned unchanged, and an immediate second call on the returned
state yields the identical result — same `safe` flag, same `risk_level`,
same `dangerous_parts` and `warnings` in the same order. -/
theorem classify_deterministic_stateless (c : SecurityChecker) (command : String) :
    (c.check command).2 = c ∧
    c.check command = ((c.check command).2).check command :=
  ⟨rfl, rfl⟩

/-- Closed instance of `classify_deterministic_stateless` at a concrete
checker and command. -/
theorem classify_deterministic_stateless_witness :
    (SecurityChecker.check ⟨["rm -rf", "wget"]⟩ "wget http://x").2
        = (⟨["rm -rf", "wget"]⟩ : SecurityChecker) ∧
    SecurityChecker.check ⟨["rm -rf", "wget"]⟩ "wget http://x"
      = ((SecurityChecker.check ⟨["rm -rf", "wget"]⟩ "wget http://x").2).check
          "wget http://x" :=
  classify_deterministic_stateless ⟨["rm -rf", "wget"]⟩ "wget http://x"

/-! ### Ledger lemmas -/

theorem dictPop_dictInsert_self (d : PendingDict) (k v : String) :
    dictPop (dictInsert d k v) k = some (v, dictErase d k) := by
  induction d with
  | nil => simp [dictInsert, dictPop, dictErase]
  | cons p rest ih =>
    obtain ⟨k', v'⟩ := p
    by_cases hk : k' = k
    · subst hk
      simp [dictInsert, dictPop, dictErase]
    · simp [dictInsert, dictPop, dictErase, hk, ih]

theorem dictPop_eq_none_iff (d : PendingDict) (k : String) :
    dictPop d k = none ↔ k ∉ d.map Prod.fst := by
  induction d with
  | nil => simp [dictPop]
  | cons p rest ih =>
    obtain ⟨k', v'⟩ := p
    by_cases hk : k' = k
    · subst hk
      simp [dictPop]
    · simp [dictPop, hk, ih, Ne.symm hk]

theorem dictPop_dictErase_self (d : PendingDict) (k : String)
    (h : (d.map Prod.fst).Nodup) : dictPop (dictErase d k) k = none := by
  induction d with
  | nil => simp [dictErase, dictPop]
  | cons p rest ih =>
    obtain ⟨k', v'⟩ := p
    rw [List.map_cons, List.nodup_cons] at h
    by_cases hk : k' = k
    · subst hk
      rw [dictErase, if_pos rfl]
      exact (dictPop_eq_none_iff ..).2 h.1
    · simp [dictErase, dictPop, hk, ih h.2]

/-- C3: parking a command and resolving the returned ticket id executes that
command and removes the ticket; a second resolve of the same id, or a resolve
of an id never parked, reports not-found. -/
theorem park_then_resolve (tid : String → String) (pending : PendingDict) (c : String)
    (hkeys : (pending.map Prod.fst).Nodup) (hid : tid c ≠ "") :
    approve_command (request_approval tid pending c).2
        (some (request_approval tid pending c).1)
      = (.execute c, dictErase pending (tid c))
    ∧ approve_command (dictErase pending (tid c))
        (some (request_approval tid pending c).1)
      = (.notFound, dictErase pending (tid c))
    ∧ ∀ id, id ∉ pending.map Prod.fst →
        approve_command pending (some id) = (.notFound, pending) := by
  refine ⟨?_, ?_, ?_⟩
  · simp [approve_command, request_approval, hid, dictPop_dictInsert_self]
  · simp [approve_command, request_approval, hid,
      dictPop_dictErase_self pending (tid c) hkeys]
  · intro id hid'
    by_cases h0 : id = ""
    · simp [approve_command, h0]
    · simp [approve_command, h0, (dictPop_eq_none_iff ..).2 hid']

/-- Closed instance of `park_then_resolve`: park into a one-ticket ledger,
resolve, resolve again, and probe an id that was never parked. -/
theorem park_then_resolve_witness :
    approve_command
        (request_approval (fun _ => "bbbb2222") [("aaaa1111", "ls")] "rm -rf /").2
        (some (request_approval (fun _ => "bbbb2222") [("aaaa1111", "ls")] "rm -rf /").1)
      = (.execute "rm -rf /", dictErase [("aaaa1111", "ls")] "bbbb2222")
    ∧ approve_command (dictErase [("aaaa1111", "ls")] "bbbb2222")
        (some (request_approval (fun _ => "bbbb2222") [("aaaa1111", "ls")] "rm -rf /").1)
      = (.notFound, dictErase [("aaaa1111", "ls")] "bbbb2222")
    ∧ approve_command [("aaaa1111", "ls")] (some "cccc3333")
      = (.notFound, [("aaaa1111", "ls")]) := by
  have h := park_then_resolve (fun _ => "bbbb2222") [("aaaa1111", "ls")] "rm -rf /"
    (by decide) (by decide)
  exact ⟨h.1, h.2.1, h.2.2 "cccc3333" (by decide)⟩

/-- C10: an approval request with a missing or never-parked ticket id leaves
the ledger unchanged and executes nothing; and in general an `approve` call
either leaves the ledger unchanged or removes exactly the resolved entry. -/
theorem approve_absent_id_unchanged (pending : PendingDict) (command_id : Option String)
    (h : command_id = none ∨
      ∃ id, command_id = some id ∧ id ∉ pending.map Prod.fst) :
    approve_command pending command_id = (.notFound, pending)
    ∧ ∀ (d : PendingDict) (oid : Option String),
        (approve_command d oid).2 = d ∨
        ∃ id c, oid = some id ∧
          dictPop d id = some (c, (approve_command d oid).2) := by
  constructor
  · rcases h with h | ⟨id, rfl, hid⟩
    · subst h; rfl
    · by_cases h0 : id = ""
      · simp [approve_command, h0]
      · simp [approve_command, h0, (dictPop_eq_none_iff ..).2 hid]
  · intro d oid
    match oid with
    | none => exact Or.inl rfl
    | some id =>
      by_cases h0 : id = ""
      · exact Or.inl (by simp [approve_command, h0])
      · cases hpop : dictPop d id with
        | none => exact Or.inl (by simp [approve_command, h0, hpop])
        | some p =>
          refine Or.inr ⟨id, p.1, rfl, ?_⟩
          simp [approve_command, h0, hpop]

/-- Closed instance of `approve_absent_id_unchanged` on a one-ticket ledger:
an absent id and a missing id both leave it untouched; a present id is
removed exactly. -/
theorem approve_absent_id_unchanged_witness :
    approve_command [("aaaa1111", "ls")] (some "zzzz9999")
      = (.notFound, [("aaaa1111", "ls")])
    ∧ ((approve_command [("aaaa1111", "ls")] (some "aaaa1111")).2 = [("aaaa1111", "ls")]
      ∨ ∃ id c, (some "aaaa1111" : Option String) = some id ∧
          dictPop [("aaaa1111", "ls")] id
            = some (c, (approve_command [("aaaa1111", "ls")] (some "aaaa1111")).2)) := by
  have h := approve_absent_id_unchanged [("aaaa1111", "ls")] (some "zzzz9999")
    (Or.inr ⟨"zzzz9999", rfl, by decide⟩)
  exact ⟨h.1, h.2 [("aaaa1111", "ls")] (some "aaaa1111")⟩

/-! ### Pipeline theorems -/

/-- C1: for a command within the length bound, a ticket is parked (and
nothing executed) exactly when the verdict is unsafe and auto-approval is
off; in every other case the command goes straight to the runner and the
ledger is untouched. -/
theorem gate_parks_iff_unsafe_verdict (tid : String → String) (cfg : BotConfig)
    (pending : PendingDict) (command : String)
    (hlen : command.length ≤ cfg.max_command_length) :
    ((check_command cfg.dangerous_commands command).safe = false ∧
        cfg.auto_approve_safe = false →
      execute_with_security_check tid cfg pending command
        = (.parked (tid command), dictInsert pending (tid command) command))
    ∧ ((check_command cfg.dangerous_commands command).safe = true ∨
        cfg.auto_approve_safe = true →
      execute_with_security_check tid cfg pending command
        = (.executed command, pending)) := by
  have hnot : ¬ command.length > cfg.max_command_length := by omega
  constructor
  · rintro ⟨hsafe, hauto⟩
    simp [execute_with_security_check, hnot, hsafe, hauto, request_approval]
  · intro hor
    have hcond : ((check_command cfg.dangerous_commands command).safe
        || cfg.auto_approve_safe) = true := by
      rcases hor with h | h <;> simp [h]
    simp [execute_with_security_check, hnot, hcond]

/-- Closed instance of `gate_parks_iff_unsafe_verdict`: an unsafe command is parked,
a safe one executed, under the default policy. -/
theorem gate_parks_iff_unsafe_verdict_witness :
    execute_with_security_check (fun _ => "abcd1234")
        ⟨1000, false, ["rm -rf"]⟩ [] "rm -rf /"
      = (.parked "abcd1234", [("abcd1234", "rm -rf /")])
    ∧ execute_with_security_check (fun _ => "abcd1234")
        ⟨1000, false, ["rm -rf"]⟩ [] "echo hi"
      = (.executed "echo hi", []) := by
  constructor
  · exact (gate_parks_iff_unsafe_verdict (fun _ => "abcd1234") ⟨1000, false, ["rm -rf"]⟩ []
      "rm -rf /" (by decide)).1 ⟨by decide, rfl⟩
  · exact (gate_parks_iff_unsafe_verdict (fun _ => "abcd1234") ⟨1000, false, ["rm -rf"]⟩ []
      "echo hi" (by decide)).2 (Or.inl (by decide))

/-- C5: a command longer than the configured maximum is rejected before
classification — no execution, no ticket, ledger unchanged — and the outcome
does not depend on the dangerous-term policy at all. -/
theorem gate_rejects_long (tid : String → String) (cfg : BotConfig)
    (pending : PendingDict) (command : String)
    (hlen : command.length > cfg.max_command_length) :
    execute_with_security_check tid cfg pending command = (.rejectedTooLong, pending)
    ∧ ∀ terms : List String,
        execute_with_security_check tid
          { cfg with dangerous_commands := terms } pending command
          = (.rejectedTooLong, pending) := by
  constructor
  · simp [execute_with_security_check, hlen]
  · intro terms
    simp [execute_with_security_check, hlen]

/-- Closed instance of `gate_rejects_long`: an 10-character command against a
5-character maximum is rejected whatever the dangerous-term list. -/
theorem gate_rejects_long_witness :
    execute_with_security_check (fun _ => "abcd1234") ⟨5, false, ["rm -rf"]⟩ []
        "echo hello"
      = (.rejectedTooLong, [])
    ∧ execute_with_security_check (fun _ => "abcd1234") ⟨5, false, []⟩ []
        "echo hello"
      = (.rejectedTooLong, []) := by
  have h := gate_rejects_long (fun _ => "abcd1234") ⟨5, false, ["rm -rf"]⟩ []
    "echo hello" (by decide)
  exact ⟨h.1, h.2 []⟩

/-! ### Runner theorem -/

/-- C6: `execute_command` maps the three possible outcomes of the shell call
(at the fixed 30-second bound) to exactly the three specified results:
completion yields success with the captured exit code and output regardless
of exit code, timeout yields failure with the timeout-specific message, any
other launch failure yields failure with the underlying error text; success
holds exactly on completion. -/
theorem runner_trichotomy (os_type command : String)
    (shell : String → Nat → SubprocessOutcome) :
    ((execute_command os_type command shell).success = true ↔
      ∃ returncode stdout stderr,
        shell command 30 = .completed returncode stdout stderr)
    ∧ (∀ returncode stdout stderr,
        shell command 30 = .completed returncode stdout stderr →
        execute_command os_type command shell =
          { success := true, stdout := some stdout, stderr := some stderr
          , returncode := some returncode, error := none })
    ∧ (shell command 30 = .timedOut →
        execute_command os_type command shell =
          { success := false, stdout := none, stderr := none, returncode := none
          , error := some timeoutErrorMessage })
    ∧ (∀ message, shell command 30 = .failed message →
        execute_command os_type command shell =
          { success := false, stdout := none, stderr := none, returncode := none
          , error := some message }) := by
  have hcall : (if os_type = "windows" then shell command 30 else shell command 30)
      = shell command 30 := by
    by_cases h : os_type = "windows" <;> simp [h]
  simp only [execute_command, hcall]
  cases hout : shell command 30 with
  | completed rc so se =>
    refine ⟨?_, ?_, ?_, ?_⟩
    · exact ⟨fun _ => ⟨rc, so, se, rfl⟩, fun _ => rfl⟩
    · intro r s e h
      cases h
      rfl
    · intro h
      cases h
    · intro m h
      cases h
  | timedOut =>
    refine ⟨?_, ?_, ?_, ?_⟩
    · constructor
      · intro h
        simp at h
      · rintro ⟨r, s, e, h⟩
        cases h
    · intro r s e h
      cases h
    · intro _
      rfl
    · intro m h
      cases h
  | failed msg =>
    refine ⟨?_, ?_, ?_, ?_⟩
    · constructor
      · intro h
        simp at h
      · rintro ⟨r, s, e, h⟩
        cases h
    · intro r s e h
      cases h
    · intro h
      cases h
    · intro m h
      cases h
      rfl

/-- Closed instance of `runner_trichotomy`: a shell oracle that completes
with exit code 1 yields success with all fields captured. -/
theorem runner_trichotomy_witness :
    execute_command "linux" "ls /missing"
        (fun _ _ => .completed 1 "" "no such file")
      = { success := true, stdout := some "", stderr := some "no such file"
        , returncode := some 1, error := none } :=
  (runner_trichotomy "linux" "ls /missing"
    (fun _ _ => .completed 1 "" "no such file")).2.1 1 "" "no such file" rfl

/-! ### History lemmas -/

theorem everyFifthAux_len_bound {α : Type} :
    ∀ (l : List α) (k : Nat), 5 * (everyFifthAux k l).length ≤ (l.length - k) + 4
  | [], _ => by simp [everyFifthAux]
  | x :: xs, 0 => by
    rw [everyFifthAux, List.length_cons, List.length_cons]
    have hb := everyFifthAux_len_bound xs 4
    omega
  | x :: xs, k + 1 => by
    rw [everyFifthAux, List.length_cons]
    have hb := everyFifthAux_len_bound xs k
    omega

theorem everyFifthAux_getElem? {α : Type} :
    ∀ (l : List α) (k i : Nat), (everyFifthAux k l)[i]? = l[k + 5 * i]?
  | [], _, _ => by simp [everyFifthAux]
  | x :: xs, 0, 0 => by simp [everyFifthAux]
  | x :: xs, 0, i + 1 => by
    rw [everyFifthAux, List.getElem?_cons_succ,
      everyFifthAux_getElem? xs 4 i]
    have h5 : 0 + 5 * (i + 1) = (4 + 5 * i) + 1 := by omega
    rw [h5, List.getElem?_cons_succ]
  | x :: xs, k + 1, i => by
    rw [everyFifthAux, everyFifthAux_getElem? xs k i]
    have h5 : k + 1 + 5 * i = (k + 5 * i) + 1 := by omega
    rw [h5, List.getElem?_cons_succ]

theorem everyFifthAux_sublist {α : Type} :
    ∀ (l : List α) (k : Nat), List.Sublist (everyFifthAux k l) l
  | [], _ => by simp [everyFifthAux]
  | x :: xs, 0 => by
    rw [everyFifthAux]
    exact List.Sublist.cons₂ x (everyFifthAux_sublist xs 4)
  | x :: xs, k + 1 => by
    rw [everyFifthAux]
    exact List.Sublist.cons x (everyFifthAux_sublist xs k)

theorem everyFifth_getElem? {α : Type} (l : List α) (i : Nat) :
    (everyFifth l)[i]? = l[5 * i]? := by
  rw [everyFifth, everyFifthAux_getElem? l 0 i, Nat.zero_add]

theorem everyFifth_len_bound {α : Type} (l : List α) :
    5 * (everyFifth l).length ≤ l.length + 4 := by
  have hb := everyFifthAux_len_bound l 0
  rw [everyFifth]
  omega

theorem everyFifth_sublist {α : Type} (l : List α) : List.Sublist (everyFifth l) l :=
  everyFifthAux_sublist l 0

theorem compress_history_length (limit : Nat) (msgs : List HistoryEntry)
    (hlim : 21 ≤ limit) (hlen : msgs.length = limit + 1) :
    (compress_history limit msgs).length ≤ limit := by
  rw [compress_history, if_pos (by omega)]
  rw [List.length_append, List.length_drop]
  have hb := everyFifth_len_bound (msgs.take (msgs.length - 20))
  have ht : (msgs.take (msgs.length - 20)).length = msgs.length - 20 := by
    rw [List.length_take]
    omega
  rw [ht] at hb
  omega

theorem add_message_limit (h : MessageHistory) (r c t : String) :
    (add_message h r c t).limit = h.limit := by
  rw [add_message]
  split <;> rfl

theorem add_message_length_le (h : MessageHistory) (r c t : String)
    (hlim : 21 ≤ h.limit) (hlen : h.messages.length ≤ h.limit) :
    (add_message h r c t).messages.length ≤ h.limit := by
  rw [add_message]
  split
  · next hc =>
    have hl1 : (h.messages ++ [(⟨r, c, t⟩ : HistoryEntry)]).length = h.limit + 1 := by
      rw [List.length_append] at hc ⊢
      simp at hc ⊢
      omega
    exact compress_history_length h.limit _ hlim hl1
  · next hc =>
    simp only
    omega

/-- C7 as stated is false: with history limit 10 (below the compaction
floor), the 11th append triggers compaction but leaves 11 entries, so
`count(entries) ≤ limit` does not hold after that append. -/
theorem history_bound_counterexample :
    (((List.range 11).foldl (fun acc _ => add_message acc "user" "msg" "ts")
        ⟨10, []⟩).messages.length = 11)
    ∧ ¬ (((List.range 11).foldl (fun acc _ => add_message acc "user" "msg" "ts")
        ⟨10, []⟩).messages.length ≤ 10) := by
  constructor
  · rfl
  · decide

/-- C7 amended: for every configured history limit of at least 21, after any
sequence of appends starting from an empty history the entry count is at
most the limit — each append that would exceed the limit triggers a
compaction that restores the bound before returning. -/
theorem history_bound_after_appends (limit : Nat) (hlim : 21 ≤ limit)
    (ops : List (String × String × String)) :
    ((ops.foldl (fun acc p => add_message acc p.1 p.2.1 p.2.2)
        ⟨limit, []⟩ : MessageHistory)).messages.length ≤ limit := by
  suffices hgen : ∀ (l : List (String × String × String)) (h : MessageHistory),
      h.limit = limit → h.messages.length ≤ limit →
      ((l.foldl (fun acc p => add_message acc p.1 p.2.1 p.2.2) h)).messages.length ≤ limit by
    exact hgen ops ⟨limit, []⟩ rfl (by simp)
  intro l
  induction l with
  | nil =>
    intro h _ hm
    simpa using hm
  | cons op rest ih =>
    intro h hl hm
    rw [List.foldl_cons]
    refine ih (add_message h op.1 op.2.1 op.2.2) ?_ ?_
    · rw [add_message_limit, hl]
    · have hle := add_message_length_le h op.1 op.2.1 op.2.2 (by omega) (by omega)
      omega

/-- Closed instance of `history_bound_after_appends`: 30 appends at the
minimal compacting limit 21 stay within the bound. -/
theorem history_bound_after_appends_witness :
    (((List.replicate 30 ("user", "msg", "ts")).foldl
        (fun acc p => add_message acc p.1 p.2.1 p.2.2)
        ⟨21, []⟩ : MessageHistory)).messages.length ≤ 21 :=
  history_bound_after_appends 21 (by decide) (List.replicate 30 ("user", "msg", "ts"))

/-- C8: whenever an append pushes the count over the limit, the compacted
list is exactly the stride-5 subsample (oldest-first: retained index `i`
holds old entry `5*i`) of the entries preceding the most recent 20,
followed by the most recent 20 verbatim and in order, and every retained
entry is one of the original entries. -/
theorem compaction_shape (h : MessageHistory) (r c t : String)
    (hexc : h.messages.length + 1 > h.limit) :
    ((add_message h r c t).messages
      = everyFifth ((h.messages ++ [(⟨r, c, t⟩ : HistoryEntry)]).take
            (h.messages.length + 1 - 20))
        ++ (h.messages ++ [(⟨r, c, t⟩ : HistoryEntry)]).drop
            (h.messages.length + 1 - 20))
    ∧ (∀ i, (everyFifth ((h.messages ++ [(⟨r, c, t⟩ : HistoryEntry)]).take
          (h.messages.length + 1 - 20)))[i]?
        = ((h.messages ++ [(⟨r, c, t⟩ : HistoryEntry)]).take
            (h.messages.length + 1 - 20))[5 * i]?)
    ∧ (∀ m ∈ (add_message h r c t).messages,
        m ∈ h.messages ++ [(⟨r, c, t⟩ : HistoryEntry)]) := by
  have hlen : (h.messages ++ [(⟨r, c, t⟩ : HistoryEntry)]).length
      = h.messages.length + 1 := by
    simp
  have heq : (add_message h r c t).messages
      = everyFifth ((h.messages ++ [(⟨r, c, t⟩ : HistoryEntry)]).take
            (h.messages.length + 1 - 20))
        ++ (h.messages ++ [(⟨r, c, t⟩ : HistoryEntry)]).drop
            (h.messages.length + 1 - 20) := by
    rw [add_message]
    rw [if_pos (by rw [hlen]; exact hexc)]
    simp only
    rw [compress_history, if_pos (by rw [hlen]; exact hexc), hlen]
  refine ⟨heq, fun i => everyFifth_getElem? _ i, ?_⟩
  intro m hm
  rw [heq] at hm
  rcases List.mem_append.1 hm with hm | hm
  · have hsub := (everyFifth_sublist
      ((h.messages ++ [(⟨r, c, t⟩ : HistoryEntry)]).take
        (h.messages.length + 1 - 20))).subset hm
    exact (List.take_subset _ _) hsub
  · exact (List.drop_subset _ _) hm

/-- Closed instance of `compaction_shape`: limit 3 with 3 entries, a 4th
append compacts (here the whole list is within the most recent 20, so it is
kept verbatim). -/
theorem compaction_shape_witness :
    ((add_message ⟨3, ([⟨"user", "a", "1"⟩, ⟨"assistant", "b", "2"⟩,
        ⟨"user", "c", "3"⟩] : List HistoryEntry)⟩ "assistant" "d" "4").messages
      = everyFifth ((([⟨"user", "a", "1"⟩, ⟨"assistant", "b", "2"⟩,
          ⟨"user", "c", "3"⟩] : List HistoryEntry)
            ++ ([⟨"assistant", "d", "4"⟩] : List HistoryEntry)).take (3 + 1 - 20))
        ++ (([⟨"user", "a", "1"⟩, ⟨"assistant", "b", "2"⟩,
          ⟨"user", "c", "3"⟩] : List HistoryEntry)
            ++ ([⟨"assistant", "d", "4"⟩] : List HistoryEntry)).drop (3 + 1 - 20))
    ∧ (∀ i, (everyFifth ((([⟨"user", "a", "1"⟩, ⟨"assistant", "b", "2"⟩,
          ⟨"user", "c", "3"⟩] : List HistoryEntry)
            ++ ([⟨"assistant", "d", "4"⟩] : List HistoryEntry)).take (3 + 1 - 20)))[i]?
        = ((([⟨"user", "a", "1"⟩, ⟨"assistant", "b", "2"⟩,
          ⟨"user", "c", "3"⟩] : List HistoryEntry)
            ++ ([⟨"assistant", "d", "4"⟩] : List HistoryEntry)).take (3 + 1 - 20))[5 * i]?)
    ∧ (∀ m ∈ (add_message ⟨3, ([⟨"user", "a", "1"⟩, ⟨"assistant", "b", "2"⟩,
        ⟨"user", "c", "3"⟩] : List HistoryEntry)⟩ "assistant" "d" "4").messages,
        m ∈ ([⟨"user", "a", "1"⟩, ⟨"assistant", "b", "2"⟩,
          ⟨"user", "c", "3"⟩] : List HistoryEntry)
            ++ [(⟨"assistant", "d", "4"⟩ : HistoryEntry)]) :=
  compaction_shape ⟨3, ([⟨"user", "a", "1"⟩, ⟨"assistant", "b", "2"⟩,
    ⟨"user", "c", "3"⟩] : List HistoryEntry)⟩ "assistant" "d" "4" (by decide)

example : (check_command ["rm -rf"] "please RM -rf /tmp").safe = false := by decide
example : (check_command ["rm -rf"] "please RM -rf /tmp").risk_level = "medium" := by decide
example : (check_command [] "echo hello | cat").safe = false := by decide
example : (check_command [] "echo hello | cat").risk_level = "low" := by decide
example : (check_command [] "echo hi").safe = true := by decide
example : matchRedir "a > /etc".data = true := by decide
example : matchRedir "a > etc".data = false := by decide
example : matchAngle "a < b > c".data = true := by decide
example : matchAngle "a < b \n > c".data = false := by decide
example : matchDollar "x $(ls) y".data = true := by decide
example : matchDollar "x $(ls y".data = false := by decide
example : matchBacktick "x \x60ls\x60".data = true := by decide
example : matchBacktick "x \x60ls".data = false := by decide
